import Mathlib

/-!
Shallow embedding of the battery test controller (battery_test.py) of the
pybench repository: the charge cycle, the discharge cycle with periodic
resistance pulses, the CSV flushing helper and the module-level cycle
orchestrator.  Voltages, currents, charges and wall-clock times are modelled
as exact rationals; the hardware and the wall clock are abstracted into an
input trace of events, one event per iteration of a sampling loop, carrying
the instant at which the iteration starts and the measurements the
instruments return at that instant.  A Python exception raised inside a loop
body (for example a VISA I/O failure in a measurement call) is modelled by a
dedicated trace event.  All loop bodies are idealised as instantaneous except
for the explicit pulse settle sleep, whose duration is accounted for exactly
as the source does.
-/

namespace BatteryTest

/-- The battery parameters imported from the spec module
(spec_velo2_4v35), abstracted since that module only provides named
constants. -/
structure Params where
  charge_voltage : Rat
  charge_current : Rat
  charge_termination_current : Rat
  discharge_current : Rat
  discharge_termination_voltage : Rat
  nominal_capacity_mah : Rat
deriving Repr, DecidableEq

/-- pulse_discharge_current = 2 * spec.discharge_current (battery_test.py line 29). -/
def pulse_discharge_current (p : Params) : Rat := 2 * p.discharge_current

/-- pulse_settle_time = 2 seconds (battery_test.py line 30). -/
def pulse_settle_time : Rat := 2

/-- pulse_spacing = 120 seconds (battery_test.py line 31). -/
def pulse_spacing : Rat := 120

/-- The hard safety ceiling of the charge loop: 3 * 3600 seconds
(battery_test.py line 125). -/
def charge_safety_limit : Rat := 3 * 3600

/-- num_samples_required = 20 (battery_test.py line 264). -/
def num_samples_required : Nat := 20

/-- A row appended by the charge loop (battery_test.py lines 105..112). -/
structure ChargeSample where
  time : Rat
  voltage : Rat
  current : Rat
  charge : Rat
  status : String
deriving Repr, DecidableEq

/-- A row appended by the discharge loop (battery_test.py lines 197..204 and
240..247).  The resistance field is none for the textual placeholder written
by plain discharge samples and some r for pulse samples. -/
structure DischargeSample where
  time : Rat
  voltage : Rat
  current : Rat
  charge : Rat
  resistance : Option Rat
  status : String
deriving Repr, DecidableEq

/-- log_to_file (battery_test.py lines 50..56): the field names are taken
from samples[0], so the call raises IndexError on an empty sample list and
nothing is written; otherwise the header and every row are written.  The
returned value models the rows successfully written, none modelling the
raised exception. -/
def log_to_file (samples : List α) : Option (List α) :=
  match samples with
  | [] => none
  | s :: rest => some (s :: rest)

/-- The on/off state of the three instrument outputs: the relay channel CH1
and the charger channel CH2 of the PSU, and the electronic load input. -/
structure Outputs where
  ch1_on : Bool
  ch2_on : Bool
  load_on : Bool
deriving Repr, DecidableEq

/-- How a cycle function returns to the orchestrator: a True return
(success), a False return (failure), or a Python exception propagating out
of the function (escaped). -/
inductive CycleResult where
  | success
  | failure
  | escaped
deriving Repr, DecidableEq

/-- The observable outcome of one cycle invocation: the returned flag, the
rows flushed by the finalization log_to_file call (none when that call
itself raised), and the instrument output states on exit. -/
structure CycleRun (S : Type) where
  result : CycleResult
  flushed : Option (List S)
  outputs : Outputs
deriving Repr, DecidableEq

/-- The outcome of one sampling-loop iteration: continue with the new state,
or leave the loop with the new state for the given reason. -/
inductive StepOut (σ : Type) (ε : Type) where
  | cont (st : σ)
  | stop (st : σ) (why : ε)
deriving Repr, DecidableEq

/-! ### The charge cycle -/

/-- One iteration of the charge monitoring loop as seen from outside: the
wall-clock instant now at which the iteration's time.time() calls are
idealised to return, and the voltage and current CH2.measure_all() reports;
or an exception raised by the iteration's hardware access. -/
inductive ChargeEvent where
  | reading (now voltage current : Rat)
  | exn
deriving Repr, DecidableEq

/-- The loop-carried state of charge_cycle: last_sample_time,
estimated_charge and the in-memory sample list. -/
structure ChargeState where
  last_sample_time : Rat
  estimated_charge : Rat
  samples : List ChargeSample
deriving Repr, DecidableEq

/-- Why the charge loop stopped: the termination-current break
(battery_test.py line 120), the 3-hour safety break (line 125), or an
exception leaving the loop for the except clause. -/
inductive ChargeExit where
  | cutoff
  | timeout
  | raised
deriving Repr, DecidableEq

/-- The state at the start of the charge loop (battery_test.py lines
80..86): empty samples, zero accumulated charge, last_sample_time equal to
start_time. -/
def chargeInit (start : Rat) : ChargeState :=
  { last_sample_time := start, estimated_charge := 0, samples := [] }

/-- One iteration of the charge loop body (battery_test.py lines 94..138):
dt is measured against last_sample_time, the accumulated charge is updated
with current * dt BEFORE the sample is appended (so the appended sample
carries the updated charge), then the termination-current break is checked
first and the 3-hour safety break second. -/
def chargeStep (p : Params) (start : Rat) (st : ChargeState) (e : ChargeEvent) :
    StepOut ChargeState ChargeExit :=
  match e with
  | .exn => .stop st .raised
  | .reading now v i =>
      let dt := now - st.last_sample_time
      let charge1 := st.estimated_charge + i * dt
      let sample : ChargeSample :=
        { time := now - start, voltage := v, current := i, charge := charge1,
          status := "charging" }
      let st1 : ChargeState :=
        { last_sample_time := now, estimated_charge := charge1,
          samples := st.samples ++ [sample] }
      if i < p.charge_termination_current then .stop st1 .cutoff
      else if charge_safety_limit < now - start then .stop st1 .timeout
      else .cont st1

/-- The charge monitoring loop (battery_test.py lines 94..138), one event
per iteration; none when the trace ends with the loop still running. -/
def chargeLoop (p : Params) (start : Rat) :
    ChargeState → List ChargeEvent → Option (ChargeState × ChargeExit)
  | _, [] => none
  | st, e :: es =>
      match chargeStep p start st e with
      | .cont st1 => chargeLoop p start st1 es
      | .stop st1 w => some (st1, w)

/-- The tail of charge_cycle shared by every path that reaches the finally
clause with the loop's locals defined (battery_test.py lines 148..164): CH1
is switched off and CH2's current zeroed (CH2's output stays on, the
set_output call being commented out), then log_to_file runs; if the sample
list is empty that call raises IndexError inside the finally clause and the
exception escapes instead of a flag being returned. -/
def finishCharge (failed : Bool) (st : ChargeState) (o : Outputs) : CycleRun ChargeSample :=
  let o1 : Outputs := { o with ch1_on := false }
  match log_to_file st.samples with
  | some rows =>
      { result := if failed then .failure else .success, flushed := some rows,
        outputs := o1 }
  | none => { result := .escaped, flushed := none, outputs := o1 }

/-- charge_cycle (battery_test.py lines 59..164).  setup_fails injects an
exception at the first hardware command of the try block (line 72), before
the local samples list exists: the finally clause still de-energises CH1,
but its log_to_file call then raises NameError and the exception escapes.
Otherwise CH1 and CH2 are switched on and the loop runs over the trace;
none when the trace ends with the loop still running. -/
def chargeCycle (p : Params) (setup_fails : Bool) (start : Rat)
    (events : List ChargeEvent) (o : Outputs) : Option (CycleRun ChargeSample) :=
  if setup_fails then
    some { result := .escaped, flushed := none, outputs := { o with ch1_on := false } }
  else
    let oLoop : Outputs := { o with ch1_on := true, ch2_on := true }
    match chargeLoop p start (chargeInit start) events with
    | none => none
    | some (st, .raised) => some (finishCharge true st oLoop)
    | some (st, .cutoff) => some (finishCharge false st oLoop)
    | some (st, .timeout) => some (finishCharge false st oLoop)

/-! ### The discharge cycle -/

/-- One iteration of the discharge loop as seen from outside: the instant
now at which the iteration's time.time() calls are idealised to return, the
voltage and current the load reports at the nominal rate, and the voltage
and current it would report after the pulse settle sleep, consumed only
when the iteration fires a pulse; or an exception raised by the iteration's
hardware access. -/
inductive DischargeEvent where
  | reading (now voltage current pv pi : Rat)
  | exn
deriving Repr, DecidableEq

/-- The loop-carried state of discharge_cycle: last_sample_time,
last_pulse_time, estimated_charge and the in-memory sample list. -/
structure DischargeState where
  last_sample_time : Rat
  last_pulse_time : Rat
  estimated_charge : Rat
  samples : List DischargeSample
deriving Repr, DecidableEq

/-- Why the discharge loop stopped: the trailing-average cutoff break
(battery_test.py line 265), or an exception leaving the loop for the
except clause (in particular the ZeroDivisionError of line 238). -/
inductive DischargeExit where
  | cutoff
  | raised
deriving Repr, DecidableEq

/-- The state at the start of the discharge loop (battery_test.py lines
172..177): empty samples, zero accumulated charge, last_sample_time and
last_pulse_time equal to start_time. -/
def dischargeInit (start : Rat) : DischargeState :=
  { last_sample_time := start, last_pulse_time := start,
    estimated_charge := 0, samples := [] }

/-- The last n elements of a list, samples[-n:] in the source. -/
def lastN (n : Nat) (l : List α) : List α := l.drop (l.length - n)

/-- The sum of the voltage fields of a sample list,
sum([sample['voltage'] for sample in ...]) in the source. -/
def voltSum (l : List DischargeSample) : Rat := (l.map (fun s => s.voltage)).sum

/-- The discharge termination test of battery_test.py line 265:
len(samples) >= 20 and the mean voltage of samples[-20:] (of whatever
status, pulse rows included) below the termination voltage. -/
def termCond (p : Params) (samples : List DischargeSample) : Bool :=
  decide (num_samples_required ≤ samples.length) &&
    decide (voltSum (lastN num_samples_required samples) / (num_samples_required : Rat) <
      p.discharge_termination_voltage)

/-- One iteration of the discharge loop body (battery_test.py lines
189..272).  The plain sample is appended carrying the accumulated charge as
it stood BEFORE this iteration's current * dt update (line 201 runs before
line 214).  A pulse fires when now - last_pulse_time > pulse_spacing: the
charge consumed during the settle sleep is added, then the resistance
division runs — raising ZeroDivisionError when the measured pulse current
equals spec.discharge_current — and on success the pulse sample is appended
with the SAME time field as the plain sample (line 241 reuses the stale
last_sample_time) and last_sample_time jumps past the pulse.  The
trailing-average termination test runs at the end of every iteration. -/
def dischargeStep (p : Params) (start : Rat) (st : DischargeState) (e : DischargeEvent) :
    StepOut DischargeState DischargeExit :=
  match e with
  | .exn => .stop st .raised
  | .reading now v i pv pi =>
      let dt := now - st.last_sample_time
      let sample : DischargeSample :=
        { time := now - start, voltage := v, current := i,
          charge := st.estimated_charge, resistance := none, status := "discharge" }
      let charge1 := st.estimated_charge + i * dt
      if pulse_spacing < now - st.last_pulse_time then
        let charge2 := charge1 + pi * pulse_settle_time
        if pi = p.discharge_current then
          .stop { last_sample_time := now, last_pulse_time := now,
                  estimated_charge := charge2,
                  samples := st.samples ++ [sample] } .raised
        else
          let r := (v - pv) / (pi - p.discharge_current)
          let psample : DischargeSample :=
            { time := now - start, voltage := pv, current := pi,
              charge := charge2, resistance := some r, status := "discharge_pulse" }
          let st1 : DischargeState :=
            { last_sample_time := now + pulse_settle_time, last_pulse_time := now,
              estimated_charge := charge2,
              samples := st.samples ++ [sample, psample] }
          if termCond p st1.samples then .stop st1 .cutoff else .cont st1
      else
        let st1 : DischargeState :=
          { last_sample_time := now, last_pulse_time := st.last_pulse_time,
            estimated_charge := charge1, samples := st.samples ++ [sample] }
        if termCond p st1.samples then .stop st1 .cutoff else .cont st1

/-- The discharge loop (battery_test.py lines 189..272), one event per
iteration; none when the trace ends with the loop still running. -/
def dischargeLoop (p : Params) (start : Rat) :
    DischargeState → List DischargeEvent → Option (DischargeState × DischargeExit)
  | _, [] => none
  | st, e :: es =>
      match dischargeStep p start st e with
      | .cont st1 => dischargeLoop p start st1 es
      | .stop st1 w => some (st1, w)

/-- discharge_cycle (battery_test.py lines 166..291).  The load is switched
on and the loop runs over the trace; the finally clause always switches the
load off and then flushes with log_to_file, which raises IndexError inside
the finally clause when no sample was collected, letting the exception
escape instead of a flag being returned; none when the trace ends with the
loop still running. -/
def dischargeCycle (p : Params) (start : Rat) (events : List DischargeEvent)
    (o : Outputs) : Option (CycleRun DischargeSample) :=
  let oDone : Outputs := { o with load_on := false }
  match dischargeLoop p start (dischargeInit start) events with
  | none => none
  | some (st, w) =>
      match log_to_file st.samples with
      | some rows =>
          some { result := match w with | .raised => .failure | .cutoff => .success,
                 flushed := some rows, outputs := oDone }
      | none => some { result := .escaped, flushed := none, outputs := oDone }

/-! ### The module-level orchestrator -/

/-- The environment behaviour of one cycle iteration of the module-level
loop (battery_test.py lines 325..341): whether the charge phase fails at
its first hardware command, and the traces driving the charge and
discharge sampling loops. -/
structure CycleInput where
  charge_setup_fails : Bool
  charge_events : List ChargeEvent
  discharge_events : List DischargeEvent
deriving Repr, DecidableEq

/-- How the module-level cycle loop ends: every cycle ran (ok), a phase
returned failure and the loop broke (abortedExit), or an exception escaped
a phase and propagates past lines 344..345 (escapedExit). -/
inductive OrchExit where
  | ok
  | abortedExit
  | escapedExit
deriving Repr, DecidableEq

/-- The module-level for loop (battery_test.py lines 325..341): one
CycleInput per planned cycle, the charge phase then the discharge phase,
breaking as soon as either returns failure; an escaping exception
propagates immediately.  The rest sleeps have no observable effect in the
model.  none when a sampling-loop trace ends with that loop still
running. -/
def orchLoop (p : Params) : List CycleInput → Outputs → Option (Outputs × OrchExit)
  | [], o => some (o, .ok)
  | c :: rest, o =>
      match chargeCycle p c.charge_setup_fails 0 c.charge_events o with
      | none => none
      | some r =>
          match r.result with
          | .escaped => some (r.outputs, .escapedExit)
          | .failure => some (r.outputs, .abortedExit)
          | .success =>
              match dischargeCycle p 0 c.discharge_events r.outputs with
              | none => none
              | some r2 =>
                  match r2.result with
                  | .escaped => some (r2.outputs, .escapedExit)
                  | .failure => some (r2.outputs, .abortedExit)
                  | .success => orchLoop p rest r2.outputs

/-- The result of the whole module-level script after the cycle loop and
the final shutdown lines. -/
structure OrchRun where
  outputs : Outputs
  exitKind : OrchExit
deriving Repr, DecidableEq

/-- The module-level cycle loop followed by the final shutdown
(battery_test.py lines 343..345): after the loop ends, normally or by
break, psu.CH1 and psu.CH2 outputs are switched off; the load output is not
addressed there.  An exception escaping a phase skips these lines. -/
def orchestrate (p : Params) (cycles : List CycleInput) (o : Outputs) : Option OrchRun :=
  match orchLoop p cycles o with
  | none => none
  | some (o1, .escapedExit) => some { outputs := o1, exitKind := .escapedExit }
  | some (o1, .ok) =>
      some { outputs := { o1 with ch1_on := false, ch2_on := false }, exitKind := .ok }
  | some (o1, .abortedExit) =>
      some { outputs := { o1 with ch1_on := false, ch2_on := false },
             exitKind := .abortedExit }

/-! ### Projections and fixed instantiations used by the verification -/

/-- The state carried out of a loop iteration, whether it continued or
stopped. -/
def stateOf : StepOut σ ε → σ
  | .cont st => st
  | .stop st _ => st

/-- The reason an iteration left its loop, none when it continued. -/
def exitOf : StepOut σ ε → Option ε
  | .cont _ => none
  | .stop _ w => some w

/-- A concrete parameter set used to instantiate the theorems on explicit
inputs (numbers chosen integral so the evaluations stay small). -/
def p0 : Params :=
  { charge_voltage := 5, charge_current := 2, charge_termination_current := 1,
    discharge_current := 2, discharge_termination_voltage := 3,
    nominal_capacity_mah := 1250 }

/-- All instrument outputs off. -/
def o0 : Outputs := { ch1_on := false, ch2_on := false, load_on := false }

/-- The shape of adjacent sample times the discharge loop produces:
strictly increasing from each row to the next, except that a pulse row may
carry exactly the same time as the plain discharge row appended just
before it. -/
def pulsePairRel (a b : DischargeSample) : Prop :=
  a.time < b.time ∨
    (a.time = b.time ∧ a.status = "discharge" ∧ b.status = "discharge_pulse")

/-- The wall clock of a charge trace advances strictly between consumed
iterations: each reading's instant exceeds the last_sample_time of the
state it is consumed in (trivially true of real time.time()); events the
loop never reaches after a break are unconstrained. -/
def wellTimedC (p : Params) (start : Rat) : ChargeState → List ChargeEvent → Bool
  | _, [] => true
  | st, e :: es =>
      (match e with
       | .exn => true
       | .reading now _ _ => decide (st.last_sample_time < now)) &&
      (match chargeStep p start st e with
       | .cont st1 => wellTimedC p start st1 es
       | .stop _ _ => true)

/-- The wall clock of a discharge trace advances strictly between consumed
iterations, in the same sense as for charge traces. -/
def wellTimedD (p : Params) (start : Rat) : DischargeState → List DischargeEvent → Bool
  | _, [] => true
  | st, e :: es =>
      (match e with
       | .exn => true
       | .reading now _ _ _ _ => decide (st.last_sample_time < now)) &&
      (match dischargeStep p start st e with
       | .cont st1 => wellTimedD p start st1 es
       | .stop _ _ => true)

/-- Every measurement of a charge trace reports the same current I. -/
def allCurrentC (I : Rat) (events : List ChargeEvent) : Bool :=
  events.all fun e =>
    match e with
    | .reading _ _ i => decide (i = I)
    | .exn => true

/-- Every measurement of a discharge trace, nominal and pulse alike,
reports the same current I. -/
def allCurrentD (I : Rat) (events : List DischargeEvent) : Bool :=
  events.all fun e =>
    match e with
    | .reading _ _ i _ pi => decide (i = I) && decide (pi = I)
    | .exn => true

/-! ### Helper lemmas -/

lemma log_to_file_of_ne_nil {l : List α} (h : l ≠ []) : log_to_file l = some l := by
  cases l with
  | nil => exact absurd rfl h
  | cons s rest => rfl

lemma log_to_file_nil : log_to_file ([] : List α) = none := rfl

/-- The discharge finalization on the exception path with at least one
sample collected: load off, full flush, False returned. -/
lemma dischargeCycle_raised_of_ne_nil (p : Params) (start : Rat)
    (events : List DischargeEvent) (o : Outputs) (st : DischargeState)
    (hloop : dischargeLoop p start (dischargeInit start) events = some (st, .raised))
    (hne : st.samples ≠ []) :
    dischargeCycle p start events o =
      some { result := .failure, flushed := some st.samples,
             outputs := { o with load_on := false } } := by
  unfold dischargeCycle
  rw [hloop]
  simp [log_to_file_of_ne_nil hne]

/-- The discharge finalization on the exception path with no sample
collected: load off, but the flush itself raises and the exception
escapes. -/
lemma dischargeCycle_raised_of_nil (p : Params) (start : Rat)
    (events : List DischargeEvent) (o : Outputs) (st : DischargeState)
    (hloop : dischargeLoop p start (dischargeInit start) events = some (st, .raised))
    (hnil : st.samples = []) :
    dischargeCycle p start events o =
      some { result := .escaped, flushed := none,
             outputs := { o with load_on := false } } := by
  unfold dischargeCycle
  rw [hloop]
  simp [hnil, log_to_file_nil]

/-- The charge finalization on the exception path with at least one sample
collected: relay off (CH2 stays energised with zeroed current), full
flush, False returned. -/
lemma chargeCycle_raised_of_ne_nil (p : Params) (start : Rat)
    (events : List ChargeEvent) (o : Outputs) (st : ChargeState)
    (hloop : chargeLoop p start (chargeInit start) events = some (st, .raised))
    (hne : st.samples ≠ []) :
    chargeCycle p false start events o =
      some { result := .failure, flushed := some st.samples,
             outputs := { ch1_on := false, ch2_on := true, load_on := o.load_on } } := by
  unfold chargeCycle
  rw [if_neg (by simp), hloop]
  simp [finishCharge, log_to_file_of_ne_nil hne]

/-- The charge finalization on the exception path with no sample collected:
relay off, but the flush itself raises and the exception escapes. -/
lemma chargeCycle_raised_of_nil (p : Params) (start : Rat)
    (events : List ChargeEvent) (o : Outputs) (st : ChargeState)
    (hloop : chargeLoop p start (chargeInit start) events = some (st, .raised))
    (hnil : st.samples = []) :
    chargeCycle p false start events o =
      some { result := .escaped, flushed := none,
             outputs := { ch1_on := false, ch2_on := true, load_on := o.load_on } } := by
  unfold chargeCycle
  rw [if_neg (by simp), hloop]
  simp [finishCharge, hnil, log_to_file_nil]

/-- A charge-loop break (as opposed to an exception) always happens just
after a sample was appended, so the sample list at a cutoff or timeout
break is never empty. -/
lemma chargeLoop_stop_ne_nil (p : Params) (start : Rat) :
    ∀ (events : List ChargeEvent) (st0 st : ChargeState) (w : ChargeExit),
      chargeLoop p start st0 events = some (st, w) → w ≠ .raised →
      st.samples ≠ [] := by
  intro events
  induction events with
  | nil => intro st0 st w h; simp [chargeLoop] at h
  | cons e es ih =>
      intro st0 st w h hw
      match e with
      | .exn =>
          simp only [chargeLoop, chargeStep, Option.some.injEq, Prod.mk.injEq] at h
          exact absurd h.2.symm hw
      | .reading now v i =>
          simp only [chargeLoop, chargeStep] at h
          by_cases hc : i < p.charge_termination_current
          · rw [if_pos hc] at h
            simp only [Option.some.injEq, Prod.mk.injEq] at h
            rw [← h.1]
            simp
          · rw [if_neg hc] at h
            by_cases ht : charge_safety_limit < now - start
            · rw [if_pos ht] at h
              simp only [Option.some.injEq, Prod.mk.injEq] at h
              rw [← h.1]
              simp
            · rw [if_neg ht] at h
              exact ih _ st w h hw

/-- A cont result of the discharge step means the termination test came out
false on the iteration's final sample list. -/
lemma dischargeStep_cont_termCond (p : Params) (start : Rat)
    (st : DischargeState) (e : DischargeEvent) (st1 : DischargeState)
    (h : dischargeStep p start st e = .cont st1) :
    termCond p st1.samples = false := by
  match e with
  | .exn => simp [dischargeStep] at h
  | .reading now v i pv pi =>
      simp only [dischargeStep] at h
      by_cases hp : pulse_spacing < now - st.last_pulse_time
      · rw [if_pos hp] at h
        by_cases hz : pi = p.discharge_current
        · rw [if_pos hz] at h; simp at h
        · rw [if_neg hz] at h
          by_cases htc : termCond p (st.samples ++
              [{ time := now - start, voltage := v, current := i,
                 charge := st.estimated_charge, resistance := none,
                 status := "discharge" },
               { time := now - start, voltage := pv, current := pi,
                 charge := st.estimated_charge + i * (now - st.last_sample_time) +
                   pi * pulse_settle_time,
                 resistance := some ((v - pv) / (pi - p.discharge_current)),
                 status := "discharge_pulse" }])
          · rw [if_pos htc] at h; simp at h
          · rw [if_neg htc] at h
            simp only [StepOut.cont.injEq] at h
            rw [← h]
            exact Bool.of_not_eq_true htc
      · rw [if_neg hp] at h
        by_cases htc : termCond p (st.samples ++
            [{ time := now - start, voltage := v, current := i,
               charge := st.estimated_charge, resistance := none,
               status := "discharge" }])
        · rw [if_pos htc] at h; simp at h
        · rw [if_neg htc] at h
          simp only [StepOut.cont.injEq] at h
          rw [← h]
          exact Bool.of_not_eq_true htc

/-- A cutoff stop of the discharge step happens exactly by the termination
test holding on the iteration's final sample list. -/
lemma dischargeStep_cutoff_termCond (p : Params) (start : Rat)
    (st : DischargeState) (e : DischargeEvent) (st1 : DischargeState)
    (h : dischargeStep p start st e = .stop st1 .cutoff) :
    termCond p st1.samples = true := by
  match e with
  | .exn => simp [dischargeStep] at h
  | .reading now v i pv pi =>
      simp only [dischargeStep] at h
      by_cases hp : pulse_spacing < now - st.last_pulse_time
      · rw [if_pos hp] at h
        by_cases hz : pi = p.discharge_current
        · rw [if_pos hz] at h; simp at h
        · rw [if_neg hz] at h
          by_cases htc : termCond p (st.samples ++
              [{ time := now - start, voltage := v, current := i,
                 charge := st.estimated_charge, resistance := none,
                 status := "discharge" },
               { time := now - start, voltage := pv, current := pi,
                 charge := st.estimated_charge + i * (now - st.last_sample_time) +
                   pi * pulse_settle_time,
                 resistance := some ((v - pv) / (pi - p.discharge_current)),
                 status := "discharge_pulse" }])
          · rw [if_pos htc] at h
            simp only [StepOut.stop.injEq] at h
            rw [← h.1]
            exact htc
          · rw [if_neg htc] at h; simp at h
      · rw [if_neg hp] at h
        by_cases htc : termCond p (st.samples ++
            [{ time := now - start, voltage := v, current := i,
               charge := st.estimated_charge, resistance := none,
               status := "discharge" }])
        · rw [if_pos htc] at h
          simp only [StepOut.stop.injEq] at h
          rw [← h.1]
          exact htc
        · rw [if_neg htc] at h; simp at h

/-- The termination test passes only on sample lists of length at least
num_samples_required. -/
lemma termCond_length (p : Params) (samples : List DischargeSample)
    (h : termCond p samples = true) : num_samples_required ≤ samples.length := by
  unfold termCond at h
  rw [Bool.and_eq_true, decide_eq_true_iff, decide_eq_true_iff] at h
  exact h.1

/-- Any cutoff exit of the discharge loop satisfies the termination test. -/
lemma dischargeLoop_cutoff_termCond (p : Params) (start : Rat) :
    ∀ (events : List DischargeEvent) (st0 st : DischargeState),
      dischargeLoop p start st0 events = some (st, .cutoff) →
      termCond p st.samples = true := by
  intro events
  induction events with
  | nil => intro st0 st h; simp [dischargeLoop] at h
  | cons e es ih =>
      intro st0 st h
      simp only [dischargeLoop] at h
      cases hstep : dischargeStep p start st0 e with
      | cont st1 =>
          rw [hstep] at h
          exact ih st1 st h
      | stop st1 w =>
          rw [hstep] at h
          simp only [Option.some.injEq, Prod.mk.injEq] at h
          rw [← h.1]
          rw [h.2] at hstep
          exact dischargeStep_cutoff_termCond p start st0 e st1 hstep

/-- The accumulated-charge and clock updates of one charge iteration,
independent of which break is taken. -/
lemma chargeStep_charge_clock (p : Params) (start : Rat) (st : ChargeState)
    (now v i : Rat) :
    (stateOf (chargeStep p start st (.reading now v i))).estimated_charge =
      st.estimated_charge + i * (now - st.last_sample_time) ∧
    (stateOf (chargeStep p start st (.reading now v i))).last_sample_time = now := by
  simp only [chargeStep]
  split
  · exact ⟨rfl, rfl⟩
  · split
    · exact ⟨rfl, rfl⟩
    · exact ⟨rfl, rfl⟩

/-- The accumulated-charge and clock updates of one discharge iteration
when no division by zero strikes: the pulse adds pulse_current *
pulse_settle_time and advances the clock past the settle sleep. -/
lemma dischargeStep_charge_clock (p : Params) (start : Rat) (st : DischargeState)
    (now v i pv pi : Rat) (hz : pi ≠ p.discharge_current) :
    (stateOf (dischargeStep p start st (.reading now v i pv pi))).estimated_charge =
      (if pulse_spacing < now - st.last_pulse_time
        then st.estimated_charge + i * (now - st.last_sample_time) + pi * pulse_settle_time
        else st.estimated_charge + i * (now - st.last_sample_time)) ∧
    (stateOf (dischargeStep p start st (.reading now v i pv pi))).last_sample_time =
      (if pulse_spacing < now - st.last_pulse_time then now + pulse_settle_time else now) := by
  simp only [dischargeStep]
  by_cases hp : pulse_spacing < now - st.last_pulse_time
  · rw [if_pos hp, if_neg hz, if_pos hp, if_pos hp]
    split
    · exact ⟨rfl, rfl⟩
    · exact ⟨rfl, rfl⟩
  · rw [if_neg hp, if_neg hp, if_neg hp]
    split
    · exact ⟨rfl, rfl⟩
    · exact ⟨rfl, rfl⟩

/-- Under a constant measured current I, the charge loop maintains
estimated_charge = I * (last_sample_time - start): the rectangular
integral telescopes whatever the sample spacing. -/
lemma chargeLoop_const_charge (p : Params) (start I : Rat) :
    ∀ (events : List ChargeEvent) (st0 st : ChargeState) (w : ChargeExit),
      allCurrentC I events = true →
      st0.estimated_charge = I * (st0.last_sample_time - start) →
      chargeLoop p start st0 events = some (st, w) →
      st.estimated_charge = I * (st.last_sample_time - start) := by
  intro events
  induction events with
  | nil => intro st0 st w _ _ h; simp [chargeLoop] at h
  | cons e es ih =>
      intro st0 st w hall hinv h
      match e with
      | .exn =>
          simp only [chargeLoop, chargeStep, Option.some.injEq, Prod.mk.injEq] at h
          rw [← h.1]
          exact hinv
      | .reading now v i =>
          have hall2 : i = I ∧ allCurrentC I es = true := by
            unfold allCurrentC at hall ⊢
            rw [List.all_cons, Bool.and_eq_true, decide_eq_true_iff] at hall
            exact hall
          have hcc := chargeStep_charge_clock p start st0 now v i
          have hinv1 :
              (stateOf (chargeStep p start st0 (.reading now v i))).estimated_charge =
                I * ((stateOf (chargeStep p start st0 (.reading now v i))).last_sample_time
                  - start) := by
            rw [hcc.1, hcc.2, hinv, hall2.1]
            ring
          simp only [chargeLoop] at h
          cases hstep : chargeStep p start st0 (.reading now v i) with
          | cont st1 =>
              rw [hstep] at h
              rw [hstep] at hinv1
              exact ih st1 st w hall2.2 hinv1 h
          | stop st1 w2 =>
              rw [hstep] at h
              rw [hstep] at hinv1
              simp only [Option.some.injEq, Prod.mk.injEq] at h
              rw [← h.1]
              exact hinv1

/-- Under a constant measured current I distinct from the configured
discharge rate (so that no resistance division by zero strikes), the
discharge loop maintains estimated_charge = I * (last_sample_time - start),
the pulse contributions included. -/
lemma dischargeLoop_const_charge (p : Params) (start I : Rat)
    (hI : I ≠ p.discharge_current) :
    ∀ (events : List DischargeEvent) (st0 st : DischargeState) (w : DischargeExit),
      allCurrentD I events = true →
      st0.estimated_charge = I * (st0.last_sample_time - start) →
      dischargeLoop p start st0 events = some (st, w) →
      st.estimated_charge = I * (st.last_sample_time - start) := by
  intro events
  induction events with
  | nil => intro st0 st w _ _ h; simp [dischargeLoop] at h
  | cons e es ih =>
      intro st0 st w hall hinv h
      match e with
      | .exn =>
          simp only [dischargeLoop, dischargeStep, Option.some.injEq, Prod.mk.injEq] at h
          rw [← h.1]
          exact hinv
      | .reading now v i pv pi =>
          have hall2 : (i = I ∧ pi = I) ∧ allCurrentD I es = true := by
            unfold allCurrentD at hall ⊢
            rw [List.all_cons, Bool.and_eq_true, Bool.and_eq_true,
              decide_eq_true_iff, decide_eq_true_iff] at hall
            exact hall
          have hz : pi ≠ p.discharge_current := by
            rw [hall2.1.2]
            exact hI
          have hcc := dischargeStep_charge_clock p start st0 now v i pv pi hz
          have hinv1 :
              (stateOf (dischargeStep p start st0 (.reading now v i pv pi))).estimated_charge =
                I * ((stateOf (dischargeStep p start st0
                  (.reading now v i pv pi))).last_sample_time - start) := by
            rw [hcc.1, hcc.2, hinv, hall2.1.1, hall2.1.2]
            by_cases hp : pulse_spacing < now - st0.last_pulse_time
            · rw [if_pos hp, if_pos hp]
              ring
            · rw [if_neg hp, if_neg hp]
              ring
          simp only [dischargeLoop] at h
          cases hstep : dischargeStep p start st0 (.reading now v i pv pi) with
          | cont st1 =>
              rw [hstep] at h
              rw [hstep] at hinv1
              exact ih st1 st w hall2.2 hinv1 h
          | stop st1 w2 =>
              rw [hstep] at h
              rw [hstep] at hinv1
              simp only [Option.some.injEq, Prod.mk.injEq] at h
              rw [← h.1]
              exact hinv1

/-- Both charge-loop break reasons lead to a True return with the full
sample series flushed: the safety timeout is finished exactly like the
normal cutoff. -/
lemma chargeCycle_success (p : Params) (start : Rat) (events : List ChargeEvent)
    (o : Outputs) (st : ChargeState) (w : ChargeExit)
    (hloop : chargeLoop p start (chargeInit start) events = some (st, w))
    (hw : w ≠ .raised) :
    chargeCycle p false start events o =
      some { result := .success, flushed := some st.samples,
             outputs := { ch1_on := false, ch2_on := true, load_on := o.load_on } } := by
  have hne := chargeLoop_stop_ne_nil p start events (chargeInit start) st w hloop hw
  cases w with
  | raised => exact absurd rfl hw
  | cutoff =>
      unfold chargeCycle
      rw [if_neg (by simp), hloop]
      simp [finishCharge, log_to_file_of_ne_nil hne]
  | timeout =>
      unfold chargeCycle
      rw [if_neg (by simp), hloop]
      simp [finishCharge, log_to_file_of_ne_nil hne]

/-- Appending a block related across the boundary keeps a Chain'
relation. -/
lemma chain_append_blocks {α : Type} (R : α → α → Prop) (l l2 : List α)
    (h1 : List.Chain' R l) (h2 : List.Chain' R l2)
    (hcross : ∀ x ∈ l, ∀ y ∈ l2, R x y) : List.Chain' R (l ++ l2) := by
  rw [List.chain'_append]
  refine ⟨h1, h2, ?_⟩
  intro x hx y hy
  have hxl : x ∈ l := by
    obtain ⟨hne, rfl⟩ := List.mem_getLast?_eq_getLast hx
    exact List.getLast_mem hne
  exact hcross x hxl y (List.mem_of_mem_head? hy)

/-- One charge iteration started at a strictly later instant preserves the
strict increase of the sample times and their bound by the loop clock. -/
lemma chargeStep_strict_times (p : Params) (start now v i : Rat) (st : ChargeState)
    (hchain : List.Chain' (fun a b => a.time < b.time) st.samples)
    (hbound : ∀ s ∈ st.samples, s.time ≤ st.last_sample_time - start)
    (hnow : st.last_sample_time < now) :
    List.Chain' (fun a b => a.time < b.time)
      (stateOf (chargeStep p start st (.reading now v i))).samples ∧
    ∀ s ∈ (stateOf (chargeStep p start st (.reading now v i))).samples,
      s.time ≤ (stateOf (chargeStep p start st (.reading now v i))).last_sample_time
        - start := by
  have hb2 : ∀ s ∈ st.samples, s.time < now - start := fun s hs =>
    lt_of_le_of_lt (hbound s hs) (by linarith)
  have hmain :
      List.Chain' (fun a b => a.time < b.time)
        (st.samples ++
          [{ time := now - start, voltage := v, current := i,
             charge := st.estimated_charge + i * (now - st.last_sample_time),
             status := "charging" }]) ∧
      ∀ s ∈ st.samples ++
          [{ time := now - start, voltage := v, current := i,
             charge := st.estimated_charge + i * (now - st.last_sample_time),
             status := "charging" }], s.time ≤ now - start := by
    constructor
    · refine chain_append_blocks _ _ _ hchain (List.chain'_singleton _) ?_
      intro x hx y hy
      rw [List.mem_singleton] at hy
      rw [hy]
      exact hb2 x hx
    · intro s hs
      rcases List.mem_append.mp hs with hold | hnew
      · exact le_of_lt (hb2 s hold)
      · rw [List.mem_singleton] at hnew
        rw [hnew]
  simp only [chargeStep]
  split
  · exact ⟨hmain.1, hmain.2⟩
  · split
    · exact ⟨hmain.1, hmain.2⟩
    · exact ⟨hmain.1, hmain.2⟩

/-- One discharge iteration started at a strictly later instant preserves
the pulsePairRel chain of the sample times and their bound by the loop
clock: appended rows are strictly later than every existing row, and on a
pulse the plain row and the pulse row are an equal-time discharge /
discharge_pulse pair. -/
lemma dischargeStep_pulse_times (p : Params) (start now v i pv pi : Rat)
    (st : DischargeState)
    (hchain : List.Chain' pulsePairRel st.samples)
    (hbound : ∀ s ∈ st.samples, s.time ≤ st.last_sample_time - start)
    (hnow : st.last_sample_time < now) :
    List.Chain' pulsePairRel
      (stateOf (dischargeStep p start st (.reading now v i pv pi))).samples ∧
    ∀ s ∈ (stateOf (dischargeStep p start st (.reading now v i pv pi))).samples,
      s.time ≤ (stateOf (dischargeStep p start st (.reading now v i pv pi))).last_sample_time
        - start := by
  have hb2 : ∀ s ∈ st.samples, s.time < now - start := fun s hs =>
    lt_of_le_of_lt (hbound s hs) (by linarith)
  have hsettle : (0 : Rat) ≤ pulse_settle_time := by norm_num [pulse_settle_time]
  simp only [dischargeStep]
  by_cases hp : pulse_spacing < now - st.last_pulse_time
  · rw [if_pos hp]
    by_cases hz : pi = p.discharge_current
    · rw [if_pos hz]
      have hmain :
          List.Chain' pulsePairRel (st.samples ++
            [{ time := now - start, voltage := v, current := i,
               charge := st.estimated_charge, resistance := none,
               status := "discharge" }]) ∧
          (∀ s ∈ st.samples ++
            [{ time := now - start, voltage := v, current := i,
               charge := st.estimated_charge, resistance := none,
               status := "discharge" }], s.time ≤ now - start) := by
        constructor
        · refine chain_append_blocks _ _ _ hchain (List.chain'_singleton _) ?_
          intro x hx y hy
          rw [List.mem_singleton] at hy
          rw [hy]
          exact Or.inl (hb2 x hx)
        · intro s hs
          rcases List.mem_append.mp hs with hold | hnew
          · exact le_of_lt (hb2 s hold)
          · rw [List.mem_singleton] at hnew
            rw [hnew]
      exact ⟨hmain.1, hmain.2⟩
    · rw [if_neg hz]
      have hmain :
          List.Chain' pulsePairRel (st.samples ++
            [{ time := now - start, voltage := v, current := i,
               charge := st.estimated_charge, resistance := none,
               status := "discharge" },
             { time := now - start, voltage := pv, current := pi,
               charge := st.estimated_charge + i * (now - st.last_sample_time) +
                 pi * pulse_settle_time,
               resistance := some ((v - pv) / (pi - p.discharge_current)),
               status := "discharge_pulse" }]) ∧
          (∀ s ∈ st.samples ++
            [{ time := now - start, voltage := v, current := i,
               charge := st.estimated_charge, resistance := none,
               status := "discharge" },
             { time := now - start, voltage := pv, current := pi,
               charge := st.estimated_charge + i * (now - st.last_sample_time) +
                 pi * pulse_settle_time,
               resistance := some ((v - pv) / (pi - p.discharge_current)),
               status := "discharge_pulse" }],
            s.time ≤ now + pulse_settle_time - start) := by
        constructor
        · refine chain_append_blocks _ _ _ hchain ?_ ?_
          · exact List.chain'_pair.mpr (Or.inr ⟨rfl, rfl, rfl⟩)
          · intro x hx y hy
            rcases List.mem_cons.mp hy with h1 | h1
            · rw [h1]
              exact Or.inl (hb2 x hx)
            · rw [List.mem_singleton] at h1
              rw [h1]
              exact Or.inl (hb2 x hx)
        · intro s hs
          rcases List.mem_append.mp hs with hold | hnew
          · have := hbound s hold
            linarith
          · rcases List.mem_cons.mp hnew with h1 | h1
            · rw [h1]
              simp only
              linarith
            · rw [List.mem_singleton] at h1
              rw [h1]
              simp only
              linarith
      split
      · exact ⟨hmain.1, hmain.2⟩
      · exact ⟨hmain.1, hmain.2⟩
  · rw [if_neg hp]
    have hmain :
        List.Chain' pulsePairRel (st.samples ++
          [{ time := now - start, voltage := v, current := i,
             charge := st.estimated_charge, resistance := none,
             status := "discharge" }]) ∧
        (∀ s ∈ st.samples ++
          [{ time := now - start, voltage := v, current := i,
             charge := st.estimated_charge, resistance := none,
             status := "discharge" }], s.time ≤ now - start) := by
      constructor
      · refine chain_append_blocks _ _ _ hchain (List.chain'_singleton _) ?_
        intro x hx y hy
        rw [List.mem_singleton] at hy
        rw [hy]
        exact Or.inl (hb2 x hx)
      · intro s hs
        rcases List.mem_append.mp hs with hold | hnew
        · exact le_of_lt (hb2 s hold)
        · rw [List.mem_singleton] at hnew
          rw [hnew]
    split
    · exact ⟨hmain.1, hmain.2⟩
    · exact ⟨hmain.1, hmain.2⟩

/-- Along a well-timed trace the charge loop keeps its sample times
strictly increasing from each appended sample to the next. -/
lemma chargeLoop_strict_times (p : Params) (start : Rat) :
    ∀ (events : List ChargeEvent) (st0 st : ChargeState) (w : ChargeExit),
      wellTimedC p start st0 events = true →
      List.Chain' (fun a b => a.time < b.time) st0.samples →
      (∀ s ∈ st0.samples, s.time ≤ st0.last_sample_time - start) →
      chargeLoop p start st0 events = some (st, w) →
      List.Chain' (fun a b => a.time < b.time) st.samples := by
  intro events
  induction events with
  | nil => intro st0 st w _ _ _ h; simp [chargeLoop] at h
  | cons e es ih =>
      intro st0 st w hwt hchain hbound h
      match e with
      | .exn =>
          simp only [chargeLoop, chargeStep, Option.some.injEq, Prod.mk.injEq] at h
          rw [← h.1]
          exact hchain
      | .reading now v i =>
          simp only [wellTimedC, Bool.and_eq_true, decide_eq_true_iff] at hwt
          obtain ⟨hnow, hrest⟩ := hwt
          have hpres := chargeStep_strict_times p start now v i st0 hchain hbound hnow
          simp only [chargeLoop] at h
          cases hstep : chargeStep p start st0 (.reading now v i) with
          | cont st1 =>
              rw [hstep] at h
              rw [hstep] at hpres
              rw [hstep] at hrest
              exact ih st1 st w hrest hpres.1 hpres.2 h
          | stop st1 w2 =>
              rw [hstep] at h
              rw [hstep] at hpres
              simp only [Option.some.injEq, Prod.mk.injEq] at h
              rw [← h.1]
              exact hpres.1

/-- Along a well-timed trace the discharge loop keeps its sample times in
the pulsePairRel chain: strictly increasing row to row except for the
equal-time plain/pulse pairs of pulse iterations. -/
lemma dischargeLoop_pulse_times (p : Params) (start : Rat) :
    ∀ (events : List DischargeEvent) (st0 st : DischargeState) (w : DischargeExit),
      wellTimedD p start st0 events = true →
      List.Chain' pulsePairRel st0.samples →
      (∀ s ∈ st0.samples, s.time ≤ st0.last_sample_time - start) →
      dischargeLoop p start st0 events = some (st, w) →
      List.Chain' pulsePairRel st.samples := by
  intro events
  induction events with
  | nil => intro st0 st w _ _ _ h; simp [dischargeLoop] at h
  | cons e es ih =>
      intro st0 st w hwt hchain hbound h
      match e with
      | .exn =>
          simp only [dischargeLoop, dischargeStep, Option.some.injEq, Prod.mk.injEq] at h
          rw [← h.1]
          exact hchain
      | .reading now v i pv pi =>
          simp only [wellTimedD, Bool.and_eq_true, decide_eq_true_iff] at hwt
          obtain ⟨hnow, hrest⟩ := hwt
          have hpres := dischargeStep_pulse_times p start now v i pv pi st0 hchain hbound hnow
          simp only [dischargeLoop] at h
          cases hstep : dischargeStep p start st0 (.reading now v i pv pi) with
          | cont st1 =>
              rw [hstep] at h
              rw [hstep] at hpres
              rw [hstep] at hrest
              exact ih st1 st w hrest hpres.1 hpres.2 h
          | stop st1 w2 =>
              rw [hstep] at h
              rw [hstep] at hpres
              simp only [Option.some.injEq, Prod.mk.injEq] at h
              rw [← h.1]
              exact hpres.1

/-- An index lookup just past an unchanged prefix finds the first appended
element. -/
lemma get?_append_first (l : List α) (a : α) (rest : List α) :
    (l ++ a :: rest).get? l.length = some a := by
  rw [List.get?_append_right (le_refl _)]
  simp

/-! ### The claims -/

/-- C10: log_to_file takes its CSV field names from the first sample, so it
raises on an empty sample sequence instead of writing a header-only file,
and writes every row otherwise: a flush succeeds exactly when at least one
sample has been collected. -/
theorem C10_log_to_file_requires_nonempty (α : Type) (l : List α) :
    (log_to_file l = none ↔ l = []) ∧
    ∀ (s : α) (rest : List α), log_to_file (s :: rest) = some (s :: rest) := by
  constructor
  · constructor
    · intro h
      cases l with
      | nil => rfl
      | cons s rest => simp [log_to_file] at h
    · intro h
      rw [h]
      rfl
  · intro s rest
    rfl

theorem C10_witness :
    log_to_file ([] : List Nat) = none ∧ log_to_file [5] = some [5] :=
  ⟨(C10_log_to_file_requires_nonempty Nat []).1.mpr rfl,
   (C10_log_to_file_requires_nonempty Nat [5]).2 5 []⟩

/-- C9: the charge field is phase-asymmetric.  A charging sample is
appended after the integration step, so it carries the accumulated charge
including the interval that ends at it; a plain discharge sample is
appended before the integration step, so it carries the accumulated charge
excluding the interval that ends at it. -/
theorem C9_charge_field_asymmetry (p : Params) (start now v i pv pi : Rat)
    (cst : ChargeState) (dst : DischargeState) :
    (stateOf (chargeStep p start cst (.reading now v i))).samples =
      cst.samples ++
        [{ time := now - start, voltage := v, current := i,
           charge := cst.estimated_charge + i * (now - cst.last_sample_time),
           status := "charging" }] ∧
    (stateOf (dischargeStep p start dst (.reading now v i pv pi))).samples.get?
        dst.samples.length =
      some { time := now - start, voltage := v, current := i,
             charge := dst.estimated_charge, resistance := none,
             status := "discharge" } := by
  constructor
  · simp only [chargeStep]
    split
    · rfl
    · split
      · rfl
      · rfl
  · simp only [dischargeStep]
    by_cases hp : pulse_spacing < now - dst.last_pulse_time
    · rw [if_pos hp]
      by_cases hz : pi = p.discharge_current
      · rw [if_pos hz]
        exact get?_append_first _ _ _
      · rw [if_neg hz]
        split
        · exact get?_append_first _ _ _
        · exact get?_append_first _ _ _
    · rw [if_neg hp]
      split
      · exact get?_append_first _ _ _
      · exact get?_append_first _ _ _

/-- C5: the charge loop breaks on the termination current first and on the
3-hour safety ceiling second, exactly when one of the two holds at a
sampling point, and both breaks finish the cycle with a True return and a
full flush — the safety timeout is not an error. -/
theorem C5_charge_termination (p : Params) (start : Rat) :
    (∀ (st : ChargeState) (now v i : Rat),
      exitOf (chargeStep p start st (.reading now v i)) =
        (if i < p.charge_termination_current then some ChargeExit.cutoff
         else if charge_safety_limit < now - start then some ChargeExit.timeout
         else none)) ∧
    (∀ (events : List ChargeEvent) (o : Outputs) (st : ChargeState) (w : ChargeExit),
      chargeLoop p start (chargeInit start) events = some (st, w) →
      w ≠ ChargeExit.raised →
      chargeCycle p false start events o =
        some { result := .success, flushed := some st.samples,
               outputs := { ch1_on := false, ch2_on := true, load_on := o.load_on } }) := by
  constructor
  · intro st now v i
    simp only [chargeStep]
    by_cases hc : i < p.charge_termination_current
    · rw [if_pos hc, if_pos hc]
      rfl
    · rw [if_neg hc, if_neg hc]
      by_cases ht : charge_safety_limit < now - start
      · rw [if_pos ht, if_pos ht]
        rfl
      · rw [if_neg ht, if_neg ht]
        rfl
  · intro events o st w hloop hw
    exact chargeCycle_success p start events o st w hloop hw

theorem C5_witness :
    chargeCycle p0 false 0 [ChargeEvent.reading 1 5 0] o0 =
      some { result := .success,
             flushed := some [{ time := 1, voltage := 5, current := 0, charge := 0,
                                status := "charging" }],
             outputs := { ch1_on := false, ch2_on := true, load_on := false } } :=
  (C5_charge_termination p0 0).2 [ChargeEvent.reading 1 5 0] o0
    ⟨1, 0, [{ time := 1, voltage := 5, current := 0, charge := 0, status := "charging" }]⟩
    ChargeExit.cutoff
    (by norm_num [chargeLoop, chargeStep, chargeInit, p0, charge_safety_limit])
    (by simp)

/-- C8: the accumulated charge is the rectangular integral of the measured
current over the inter-sample time deltas, from zero at cycle start: under
a constant measured current I the loops maintain
estimated_charge = I * (last_sample_time - start), so the total equals
I times the elapsed time whatever the number and spacing of the samples
(for discharge, provided I differs from the configured rate so no
resistance division by zero strikes). -/
theorem C8_rectangular_integral (p : Params) (start I : Rat) :
    (∀ (events : List ChargeEvent) (st : ChargeState) (w : ChargeExit),
      allCurrentC I events = true →
      chargeLoop p start (chargeInit start) events = some (st, w) →
      st.estimated_charge = I * (st.last_sample_time - start)) ∧
    (∀ (events : List DischargeEvent) (st : DischargeState) (w : DischargeExit),
      allCurrentD I events = true → I ≠ p.discharge_current →
      dischargeLoop p start (dischargeInit start) events = some (st, w) →
      st.estimated_charge = I * (st.last_sample_time - start)) := by
  constructor
  · intro events st w hall hloop
    exact chargeLoop_const_charge p start I events (chargeInit start) st w hall
      (by simp [chargeInit]) hloop
  · intro events st w hall hI hloop
    exact dischargeLoop_const_charge p start I hI events (dischargeInit start) st w hall
      (by simp [dischargeInit]) hloop

theorem C8_witness :
    (⟨1, 2, [{ time := 1, voltage := 5, current := 2, charge := 2,
               status := "charging" }]⟩ : ChargeState).estimated_charge =
      2 * ((⟨1, 2, [{ time := 1, voltage := 5, current := 2, charge := 2,
                      status := "charging" }]⟩ : ChargeState).last_sample_time - 0) :=
  (C8_rectangular_integral p0 0 2).1 [ChargeEvent.reading 1 5 2, ChargeEvent.exn]
    ⟨1, 2, [{ time := 1, voltage := 5, current := 2, charge := 2, status := "charging" }]⟩
    ChargeExit.raised
    (by norm_num [allCurrentC])
    (by norm_num [chargeLoop, chargeStep, chargeInit, p0, charge_safety_limit])

/-- C1 counterexample: an exception raised at the very first sampling
point of a charge cycle, before any sample was collected, reaches the
finally clause with an empty sample list; the flush there raises and the
exception escapes the cycle (result escaped), so no failure flag is
returned to the caller.  The relay output is still de-energised. -/
theorem C1_counterexample :
    chargeCycle p0 false 0 [ChargeEvent.exn] o0 =
      some { result := .escaped, flushed := none,
             outputs := { ch1_on := false, ch2_on := true, load_on := false } } ∧
    CycleResult.escaped ≠ CycleResult.failure := by
  constructor
  · norm_num [chargeCycle, chargeLoop, chargeStep, chargeInit, finishCharge,
      log_to_file, p0, o0]
  · simp

/-- C1 (amended): when an exception leaves a charge or discharge sampling
loop after at least one sample was collected, the cycle disables its owned
output, flushes every collected sample and returns the failure flag; when
it leaves with no sample collected, the output is still disabled but the
finalization flush itself raises and the exception escapes without any
flag being returned. -/
theorem C1_exception_finalization (p : Params) (start : Rat) (o : Outputs) :
    (∀ (events : List ChargeEvent) (st : ChargeState),
      chargeLoop p start (chargeInit start) events = some (st, .raised) →
      st.samples ≠ [] →
      chargeCycle p false start events o =
        some { result := .failure, flushed := some st.samples,
               outputs := { ch1_on := false, ch2_on := true, load_on := o.load_on } }) ∧
    (∀ (events : List ChargeEvent) (st : ChargeState),
      chargeLoop p start (chargeInit start) events = some (st, .raised) →
      st.samples = [] →
      chargeCycle p false start events o =
        some { result := .escaped, flushed := none,
               outputs := { ch1_on := false, ch2_on := true, load_on := o.load_on } }) ∧
    (∀ (events : List DischargeEvent) (st : DischargeState),
      dischargeLoop p start (dischargeInit start) events = some (st, .raised) →
      st.samples ≠ [] →
      dischargeCycle p start events o =
        some { result := .failure, flushed := some st.samples,
               outputs := { o with load_on := false } }) ∧
    (∀ (events : List DischargeEvent) (st : DischargeState),
      dischargeLoop p start (dischargeInit start) events = some (st, .raised) →
      st.samples = [] →
      dischargeCycle p start events o =
        some { result := .escaped, flushed := none,
               outputs := { o with load_on := false } }) :=
  ⟨fun events st h hne => chargeCycle_raised_of_ne_nil p start events o st h hne,
   fun events st h hnil => chargeCycle_raised_of_nil p start events o st h hnil,
   fun events st h hne => dischargeCycle_raised_of_ne_nil p start events o st h hne,
   fun events st h hnil => dischargeCycle_raised_of_nil p start events o st h hnil⟩

theorem C1_witness :
    chargeCycle p0 false 0 [ChargeEvent.reading 1 5 2, ChargeEvent.exn] o0 =
      some { result := .failure,
             flushed := some [{ time := 1, voltage := 5, current := 2, charge := 2,
                                status := "charging" }],
             outputs := { ch1_on := false, ch2_on := true, load_on := false } } :=
  (C1_exception_finalization p0 0 o0).1 [ChargeEvent.reading 1 5 2, ChargeEvent.exn]
    ⟨1, 2, [{ time := 1, voltage := 5, current := 2, charge := 2, status := "charging" }]⟩
    (by norm_num [chargeLoop, chargeStep, chargeInit, p0, charge_safety_limit])
    (by simp)

/-- A trace of ten discharge iterations spaced farther apart than
pulse_spacing, so every iteration appends a plain row and a pulse row. -/
def pulseEveryTrace : List DischargeEvent :=
  (List.range 10).map (fun k => DischargeEvent.reading ((k + 1 : Nat) * 121) 1 2 1 4)

/-- C2 counterexample: with a pulse every iteration and all voltages below
the cutoff, the discharge loop terminates on the trailing-average test
after ten iterations, when the twenty list entries counted by
len(samples) contain only ten plain discharge samples: the window of
battery_test.py line 265 is samples[-20:] of whatever status, not the last
twenty plain discharge samples. -/
theorem C2_counterexample :
    (dischargeLoop p0 0 (dischargeInit 0) pulseEveryTrace).map
        (fun r => (r.2, r.1.samples.length,
          r.1.samples.countP (fun s => s.status = "discharge"))) =
      some (DischargeExit.cutoff, 20, 10) ∧ 10 < num_samples_required := by
  constructor
  · norm_num [dischargeLoop, dischargeStep, dischargeInit, termCond, pulseEveryTrace,
      List.range_succ, pulse_spacing, pulse_settle_time, num_samples_required, voltSum,
      lastN, p0, List.countP_cons, List.countP_nil]
    decide
  · norm_num [num_samples_required]

/-- C2 (amended): the discharge loop terminates exactly when the
termination test of line 265 holds at the end of an iteration: at least 20
samples of any status (pulse rows included) exist and the arithmetic mean
of the voltages of the last 20 list entries is below
discharge_termination_voltage; a cutoff break implies the test held, a
continued iteration implies it failed, and no cutoff break can happen with
fewer than 20 list entries, so no isolated single dip can trigger it. -/
theorem C2_trailing_window (p : Params) (start : Rat) :
    (∀ (st : DischargeState) (e : DischargeEvent) (st1 : DischargeState),
      dischargeStep p start st e = .stop st1 .cutoff → termCond p st1.samples = true) ∧
    (∀ (st : DischargeState) (e : DischargeEvent) (st1 : DischargeState),
      dischargeStep p start st e = .cont st1 → termCond p st1.samples = false) ∧
    (∀ (events : List DischargeEvent) (st : DischargeState),
      dischargeLoop p start (dischargeInit start) events = some (st, .cutoff) →
      termCond p st.samples = true ∧ num_samples_required ≤ st.samples.length) := by
  refine ⟨fun st e st1 h => dischargeStep_cutoff_termCond p start st e st1 h,
          fun st e st1 h => dischargeStep_cont_termCond p start st e st1 h, ?_⟩
  intro events st h
  have ht := dischargeLoop_cutoff_termCond p start events (dischargeInit start) st h
  exact ⟨ht, termCond_length p st.samples ht⟩

theorem C2_witness :
    termCond p0 [{ time := 1, voltage := 5, current := 2, charge := 0,
                   resistance := none, status := "discharge" }] = false :=
  (C2_trailing_window p0 0).2.1 (dischargeInit 0) (.reading 1 5 2 0 0)
    ⟨1, 0, 2, [{ time := 1, voltage := 5, current := 2, charge := 0,
                 resistance := none, status := "discharge" }]⟩
    (by norm_num [dischargeStep, dischargeInit, pulse_spacing, termCond,
      num_samples_required, voltSum, lastN, p0])

/-- C3 counterexample: a single pulse whose measured current equals the
configured discharge rate makes the resistance division raise
ZeroDivisionError; the cycle-level except clause catches it, finalization
runs and the cycle returns the failure flag — it does not continue, nor
return success. -/
theorem C3_counterexample :
    dischargeCycle p0 0 [DischargeEvent.reading 121 4 2 3 2] o0 =
      some { result := .failure,
             flushed := some [{ time := 121, voltage := 4, current := 2, charge := 0,
                                resistance := none, status := "discharge" }],
             outputs := o0 } ∧
    CycleResult.failure ≠ CycleResult.success := by
  constructor
  · norm_num [dischargeCycle, dischargeLoop, dischargeStep, dischargeInit, termCond,
      pulse_spacing, pulse_settle_time, num_samples_required, voltSum, lastN,
      log_to_file, p0, o0]
  · simp

/-- C3 (amended): a pulse measured at exactly the configured discharge
current raises out of the sampling loop (the division by zero is not
confined to the sample), and an exception leaving the loop with at least
one sample collected makes the whole cycle finalize and return failure
rather than success. -/
theorem C3_divzero_aborts_cycle (p : Params) (start : Rat) :
    (∀ (st : DischargeState) (now v pv i : Rat),
      pulse_spacing < now - st.last_pulse_time →
      exitOf (dischargeStep p start st (.reading now v i pv p.discharge_current)) =
        some DischargeExit.raised) ∧
    (∀ (events : List DischargeEvent) (o : Outputs) (st : DischargeState),
      dischargeLoop p start (dischargeInit start) events = some (st, .raised) →
      st.samples ≠ [] →
      dischargeCycle p start events o =
        some { result := .failure, flushed := some st.samples,
               outputs := { o with load_on := false } }) := by
  constructor
  · intro st now v pv i hp
    simp only [dischargeStep]
    rw [if_pos hp]
    simp [exitOf]
  · intro events o st h hne
    exact dischargeCycle_raised_of_ne_nil p start events o st h hne

theorem C3_witness :
    exitOf (dischargeStep p0 0 (dischargeInit 0)
        (.reading 121 4 2 3 p0.discharge_current)) = some DischargeExit.raised :=
  (C3_divzero_aborts_cycle p0 0).1 (dischargeInit 0) 121 4 3 2
    (by norm_num [dischargeInit, pulse_spacing])

/-- Modelled from the spec wording, for comparison only: the two-point
resistance with the measured nominal current as baseline,
R = (V_nominal - V_pulse) / (I_pulse - I_nominal_measured). -/
def specResistance (v0 i0 v1 i1 : Rat) : Rat := (v0 - v1) / (i1 - i0)

/-- C4 counterexample: with a measured nominal current of 3 A while the
configured discharge rate is 2 A, the recorded pulse resistance is
(4 - 3) / (4 - 2) = 1/2, not the (4 - 3) / (4 - 3) = 1 the claim's formula
with the measured baseline current yields: line 238 subtracts
spec.discharge_current, not the measured current. -/
theorem C4_counterexample :
    (stateOf (dischargeStep p0 0 (dischargeInit 0)
        (.reading 121 4 3 3 4))).samples.get? 1 =
      some { time := 121, voltage := 3, current := 4, charge := 371,
             resistance := some (1/2), status := "discharge_pulse" } ∧
    specResistance 4 3 3 4 = 1 ∧ (1 : Rat)/2 ≠ 1 := by
  refine ⟨?_, by norm_num [specResistance], by norm_num⟩
  norm_num [dischargeStep, dischargeInit, stateOf, termCond, pulse_spacing,
    pulse_settle_time, num_samples_required, voltSum, lastN, p0]

/-- C4 (amended): every pulse sample records
R = (V_nominal - V_pulse) / (I_pulse - spec.discharge_current): the
baseline voltage is the iteration's measured nominal-rate voltage, but the
baseline current in the denominator is the configured discharge set-point,
not the measured nominal current. -/
theorem C4_resistance_uses_configured_current (p : Params)
    (start now v i pv pi : Rat) (st : DischargeState)
    (hp : pulse_spacing < now - st.last_pulse_time)
    (hz : pi ≠ p.discharge_current) :
    (stateOf (dischargeStep p start st (.reading now v i pv pi))).samples =
      st.samples ++
        [{ time := now - start, voltage := v, current := i,
           charge := st.estimated_charge, resistance := none,
           status := "discharge" },
         { time := now - start, voltage := pv, current := pi,
           charge := st.estimated_charge + i * (now - st.last_sample_time) +
             pi * pulse_settle_time,
           resistance := some ((v - pv) / (pi - p.discharge_current)),
           status := "discharge_pulse" }] := by
  simp only [dischargeStep]
  rw [if_pos hp, if_neg hz]
  split
  · rfl
  · rfl

theorem C4_witness :
    (stateOf (dischargeStep p0 0 (dischargeInit 0)
        (.reading 121 4 3 3 4))).samples =
      (dischargeInit 0).samples ++
        [{ time := 121 - 0, voltage := 4, current := 3,
           charge := (dischargeInit 0).estimated_charge, resistance := none,
           status := "discharge" },
         { time := 121 - 0, voltage := 3, current := 4,
           charge := (dischargeInit 0).estimated_charge +
             3 * (121 - (dischargeInit 0).last_sample_time) + 4 * pulse_settle_time,
           resistance := some ((4 - 3) / (4 - p0.discharge_current)),
           status := "discharge_pulse" }] :=
  C4_resistance_uses_configured_current p0 0 121 4 3 3 4 (dischargeInit 0)
    (by norm_num [dischargeInit, pulse_spacing])
    (by norm_num [p0])

/-- C6 counterexample: if the load input happens to be on when the script
starts and charge cycle 1 returns failure, the orchestrator breaks and its
final shutdown (battery_test.py lines 344..345) switches off only the two
PSU channels: the script exits with the load output still on, so the abort
cleanup does not disable all instrument outputs. -/
theorem C6_counterexample :
    orchestrate p0
        [{ charge_setup_fails := false,
           charge_events := [ChargeEvent.reading 1 5 2, ChargeEvent.exn],
           discharge_events := [] }]
        { ch1_on := false, ch2_on := false, load_on := true } =
      some { outputs := { ch1_on := false, ch2_on := false, load_on := true },
             exitKind := .abortedExit } ∧
    ({ ch1_on := false, ch2_on := false, load_on := true } : Outputs).load_on ≠ false := by
  constructor
  · norm_num [orchestrate, orchLoop, chargeCycle, chargeLoop, chargeStep, chargeInit,
      finishCharge, log_to_file, p0, charge_safety_limit]
  · simp

/-- C6 (amended): the orchestrator stops advancing as soon as a phase
returns failure (the remaining planned cycles are irrelevant to the
outcome), and whenever the cycle loop ends without an escaping exception
the unconditional final shutdown switches off both power-supply channel
outputs — but not the load output, which only the discharge cycle's own
finalization turns off. -/
theorem C6_abort_shutdown (p : Params) :
    (∀ (cycles : List CycleInput) (o : Outputs) (run : OrchRun),
      orchestrate p cycles o = some run → run.exitKind ≠ .escapedExit →
      run.outputs.ch1_on = false ∧ run.outputs.ch2_on = false) ∧
    (∀ (c : CycleInput) (rest rest2 : List CycleInput) (o : Outputs)
        (r : CycleRun ChargeSample),
      chargeCycle p c.charge_setup_fails 0 c.charge_events o = some r →
      r.result = .failure →
      orchLoop p (c :: rest) o = orchLoop p (c :: rest2) o) ∧
    (∀ (c : CycleInput) (rest rest2 : List CycleInput) (o : Outputs)
        (r : CycleRun ChargeSample) (r2 : CycleRun DischargeSample),
      chargeCycle p c.charge_setup_fails 0 c.charge_events o = some r →
      r.result = .success →
      dischargeCycle p 0 c.discharge_events r.outputs = some r2 →
      r2.result = .failure →
      orchLoop p (c :: rest) o = orchLoop p (c :: rest2) o) := by
  refine ⟨?_, ?_, ?_⟩
  · intro cycles o run h hesc
    unfold orchestrate at h
    cases horch : orchLoop p cycles o with
    | none => rw [horch] at h; simp at h
    | some pr =>
        rw [horch] at h
        obtain ⟨o1, ex⟩ := pr
        cases ex with
        | escapedExit =>
            simp only [Option.some.injEq] at h
            rw [← h] at hesc
            simp at hesc
        | ok =>
            simp only [Option.some.injEq] at h
            rw [← h]
            exact ⟨rfl, rfl⟩
        | abortedExit =>
            simp only [Option.some.injEq] at h
            rw [← h]
            exact ⟨rfl, rfl⟩
  · intro c rest rest2 o r h hres
    simp only [orchLoop]
    rw [h]
    simp [hres]
  · intro c rest rest2 o r r2 h hres h2 hres2
    simp only [orchLoop]
    rw [h]
    simp only [hres]
    rw [h2]
    simp [hres2]

theorem C6_witness :
    orchLoop p0
        [{ charge_setup_fails := false,
           charge_events := [ChargeEvent.reading 1 5 2, ChargeEvent.exn],
           discharge_events := [] },
         { charge_setup_fails := false,
           charge_events := [ChargeEvent.reading 1 5 2, ChargeEvent.exn],
           discharge_events := [] }] o0 =
      orchLoop p0
        [{ charge_setup_fails := false,
           charge_events := [ChargeEvent.reading 1 5 2, ChargeEvent.exn],
           discharge_events := [] }] o0 :=
  (C6_abort_shutdown p0).2.1
    { charge_setup_fails := false,
      charge_events := [ChargeEvent.reading 1 5 2, ChargeEvent.exn],
      discharge_events := [] }
    [{ charge_setup_fails := false,
       charge_events := [ChargeEvent.reading 1 5 2, ChargeEvent.exn],
       discharge_events := [] }]
    [] o0
    { result := .failure,
      flushed := some [{ time := 1, voltage := 5, current := 2, charge := 2,
                         status := "charging" }],
      outputs := { ch1_on := false, ch2_on := true, load_on := false } }
    (by norm_num [chargeCycle, chargeLoop, chargeStep, chargeInit, finishCharge,
      log_to_file, p0, o0, charge_safety_limit])
    rfl

/-- C7 counterexample: an iteration that fires a pulse appends the plain
row and then the pulse row with the SAME time field (line 241 reuses the
stale last_sample_time), so the time sequence does not strictly increase
from a plain discharge sample to the pulse sample appended immediately
after it. -/
theorem C7_counterexample :
    ((stateOf (dischargeStep p0 0 (dischargeInit 0)
        (.reading 121 4 2 3 4))).samples.map (fun s => (s.time, s.status))) =
      [(121, "discharge"), (121, "discharge_pulse")] ∧
    ¬ ((121 : Rat) < 121) := by
  constructor
  · norm_num [dischargeStep, dischargeInit, stateOf, termCond, pulse_spacing,
      pulse_settle_time, num_samples_required, voltSum, lastN, p0]
  · norm_num

/-- C7 (amended): within one cycle's sample sequence the time field is
non-decreasing; along any well-timed trace it strictly increases from each
sample to the next in the charge loop, and in the discharge loop too with
one exception: a pulse iteration appends its discharge_pulse row with
exactly the same time as the plain discharge row appended immediately
before it, since line 241 reuses the stale last_sample_time. -/
theorem C7_sample_time_monotonicity (p : Params) (start : Rat) :
    (∀ (events : List ChargeEvent) (st : ChargeState) (w : ChargeExit),
      wellTimedC p start (chargeInit start) events = true →
      chargeLoop p start (chargeInit start) events = some (st, w) →
      List.Chain' (fun a b => a.time < b.time) st.samples) ∧
    (∀ (events : List DischargeEvent) (st : DischargeState) (w : DischargeExit),
      wellTimedD p start (dischargeInit start) events = true →
      dischargeLoop p start (dischargeInit start) events = some (st, w) →
      List.Chain' pulsePairRel st.samples) ∧
    (∀ (st : DischargeState) (now v i pv pi : Rat),
      pulse_spacing < now - st.last_pulse_time → pi ≠ p.discharge_current →
      (stateOf (dischargeStep p start st (.reading now v i pv pi))).samples.map
          (fun s => (s.time, s.status)) =
        (st.samples.map (fun s => (s.time, s.status))) ++
          [(now - start, "discharge"), (now - start, "discharge_pulse")]) := by
  refine ⟨?_, ?_, ?_⟩
  · intro events st w hwt h
    exact chargeLoop_strict_times p start events (chargeInit start) st w hwt
      (by simp [chargeInit]) (by simp [chargeInit]) h
  · intro events st w hwt h
    exact dischargeLoop_pulse_times p start events (dischargeInit start) st w hwt
      (by simp [dischargeInit]) (by simp [dischargeInit]) h
  · intro st now v i pv pi hp hz
    simp only [dischargeStep]
    rw [if_pos hp, if_neg hz]
    split
    · simp [stateOf]
    · simp [stateOf]

theorem C7_witness :
    List.Chain' (fun a b => a.time < b.time)
      ([{ time := 1, voltage := 5, current := 2, charge := 2, status := "charging" }] :
        List ChargeSample) ∧
    List.Chain' pulsePairRel
      [({ time := 121, voltage := 4, current := 2, charge := 0, resistance := none,
          status := "discharge" } : DischargeSample),
       { time := 121, voltage := 3, current := 4, charge := 250,
         resistance := some (1/2), status := "discharge_pulse" }] :=
  ⟨(C7_sample_time_monotonicity p0 0).1 [ChargeEvent.reading 1 5 2, ChargeEvent.exn]
      ⟨1, 2, [{ time := 1, voltage := 5, current := 2, charge := 2, status := "charging" }]⟩
      ChargeExit.raised
      (by norm_num [wellTimedC, chargeStep, chargeInit, p0, charge_safety_limit])
      (by norm_num [chargeLoop, chargeStep, chargeInit, p0, charge_safety_limit]),
   (C7_sample_time_monotonicity p0 0).2.1
      [DischargeEvent.reading 121 4 2 3 4, DischargeEvent.exn]
      ⟨123, 121, 250,
       [{ time := 121, voltage := 4, current := 2, charge := 0, resistance := none,
          status := "discharge" },
        { time := 121, voltage := 3, current := 4, charge := 250,
          resistance := some (1/2), status := "discharge_pulse" }]⟩
      DischargeExit.raised
      (by norm_num [wellTimedD, dischargeStep, dischargeInit, termCond, pulse_spacing,
        pulse_settle_time, num_samples_required, voltSum, lastN, p0])
      (by norm_num [dischargeLoop, dischargeStep, dischargeInit, termCond, pulse_spacing,
        pulse_settle_time, num_samples_required, voltSum, lastN, p0])⟩

end BatteryTest
